import Mathlib

/-!
Shallow embedding of `tracing-perf` (`src/lib.rs`): a `TimeReporter` that
accumulates elapsed time per named activity and emits one `tracing` event with
the rendered totals when it is dropped (or consumed by `finish`).

Modelling conventions:
* the default build is embedded: no `start-print-order` feature (so the map is
  `std::collections::HashMap` and `PrintOrder::default()` is `DecDuration`),
  no `minstant` feature (`std::time::Instant`);
* `Duration` and `Instant` are modelled as exact nanosecond counts (`Nat`);
  the `f64` seconds value computed in `Display::fmt` is modelled by exact
  rational arithmetic on nanoseconds, with ties-to-even rounding to the
  requested number of decimal digits;
* the `HashMap` is modelled as an association list with at most one entry per
  key; its (unspecified) iteration order is the list order, and the stable
  `sort_by` calls of `Display::fmt` are modelled by stable insertion sort;
* the clock is passed explicitly: each operation that calls `Instant::now()`
  takes the current instant as an argument;
* `Drop::drop` emits one structured event; `finish(self)` has an empty body,
  so the consumed value is dropped at its end and the same single emission
  runs there.
-/

namespace TracingPerf

/-- Severity levels, from `tracing::Level`. -/
inductive Level where
  | ERROR
  | WARN
  | INFO
  | DEBUG
  | TRACE
deriving DecidableEq, Repr

/-- Printing orders of total times (`PrintOrder`, default build without the
`start-print-order` feature). -/
inductive PrintOrder where
  | Key
  | RevKey
  | IncDuration
  | DecDuration
deriving DecidableEq, Repr

/-- Modelled from `impl Default for PrintOrder` (non-feature branch). -/
def PrintOrder.default : PrintOrder := PrintOrder.DecDuration

/-- The accumulated-times map `HashMap<&'static str, Duration>`: an association
list with at most one entry per key, durations in nanoseconds. -/
abbrev TimesMap := List (String × Nat)

/-- `*times.entry(key).or_insert_with(Duration::new(0,0)) += d`: add `d` to the
entry of `key`, first inserting a zero-duration entry when `key` is absent. -/
def entryAdd : TimesMap → String → Nat → TimesMap
  | [], k, d => [(k, 0 + d)]
  | (k', v) :: rest, k, d =>
      if k' = k then (k', v + d) :: rest else (k', v) :: entryAdd rest k d

/-- A configurable builder for a `TimeReporter` (`TimeReporterBuilder`). -/
structure TimeReporterBuilder where
  name : String
  level : Level
  print_order : PrintOrder
  width : Nat
  precision : Nat
deriving DecidableEq, Repr

/-- `TimeReporterBuilder::new(name)`. -/
def TimeReporterBuilder.new (name : String) : TimeReporterBuilder :=
  { name := name
    level := Level.INFO
    print_order := PrintOrder.default
    width := 11
    precision := 9 }

/-- `TimeReporterBuilder::level(level)`. -/
def TimeReporterBuilder.withLevel (b : TimeReporterBuilder) (l : Level) :
    TimeReporterBuilder :=
  { b with level := l }

/-- `TimeReporterBuilder::print_order(print_order)`. -/
def TimeReporterBuilder.withPrintOrder (b : TimeReporterBuilder) (o : PrintOrder) :
    TimeReporterBuilder :=
  { b with print_order := o }

/-- `TimeReporterBuilder::width(width)`. -/
def TimeReporterBuilder.withWidth (b : TimeReporterBuilder) (w : Nat) :
    TimeReporterBuilder :=
  { b with width := w }

/-- `TimeReporterBuilder::precision(precision)`. -/
def TimeReporterBuilder.withPrecision (b : TimeReporterBuilder) (p : Nat) :
    TimeReporterBuilder :=
  { b with precision := p }

/-- The timer/reporter state (`struct TimeReporter`). `cur_state_time` is the
open interval: the key being timed and the instant its timing started. -/
structure TimeReporter where
  times : TimesMap
  cur_state_time : Option (String × Nat)
  name : String
  level : Level
  print_order : PrintOrder
  width : Nat
  precision : Nat
deriving DecidableEq, Repr

/-- `TimeReporterBuilder::build()`. -/
def TimeReporterBuilder.build (b : TimeReporterBuilder) : TimeReporter :=
  { times := []
    name := b.name
    cur_state_time := none
    level := b.level
    print_order := b.print_order
    width := b.width
    precision := b.precision }

/-- `TimeReporter::new(name)`. -/
def TimeReporter.new (name : String) : TimeReporter :=
  (TimeReporterBuilder.new name).build

/-- `TimeReporter::new_with_level(name, level)`. -/
def TimeReporter.new_with_level (name : String) (level : Level) : TimeReporter :=
  ((TimeReporterBuilder.new name).withLevel level).build

/-- `TimeReporter::save_current(now)`: `take` the open interval, if any, and
add its elapsed time to the entry of its key. -/
def TimeReporter.save_current (r : TimeReporter) (now : Nat) : TimeReporter :=
  match r.cur_state_time with
  | none => r
  | some (key, prev) =>
      { r with
        cur_state_time := none
        times := entryAdd r.times key (now - prev) }

/-- `TimeReporter::start(key)` with the instant `Instant::now()` returned as
`now`: close any open interval, then install `(key, now)` as the new one. -/
def TimeReporter.start (r : TimeReporter) (key : String) (now : Nat) : TimeReporter :=
  { r.save_current now with cur_state_time := some (key, now) }

/-- `TimeReporter::start_with(key, f)`: `start(key)` then run `f`, returning
its result. -/
def TimeReporter.start_with {α : Type} (r : TimeReporter) (key : String) (now : Nat)
    (f : Unit → α) : TimeReporter × α :=
  (r.start key now, f ())

/-- `TimeReporter::stop()` with the instant `Instant::now()` returned as `now`. -/
def TimeReporter.stop (r : TimeReporter) (now : Nat) : TimeReporter :=
  r.save_current now

/-- `get_times(times, print_order)` (non-feature branch): the map's iteration
order, the print order being unused here. -/
def get_times (times : TimesMap) (print_order : PrintOrder) : TimesMap :=
  let _ := print_order
  times

/-- Ascending key order (comparison used by `stats.sort_by_key(|s| s.0)`):
Rust compares `&str` bytewise, which for UTF-8 equals the lexicographic order
on the character lists. -/
def keyLe (a b : String × Nat) : Prop := a.1.data ≤ b.1.data

/-- Descending key order (comparison used by `stats.sort_by(|a, b| b.0.cmp(a.0))`). -/
def keyGe (a b : String × Nat) : Prop := b.1.data ≤ a.1.data

/-- Ascending duration order (comparison used by `stats.sort_by_key(|s| s.1)`). -/
def durLe (a b : String × Nat) : Prop := a.2 ≤ b.2

/-- Descending duration order (comparison used by `stats.sort_by(|a, b| b.1.cmp(&a.1))`). -/
def durGe (a b : String × Nat) : Prop := b.2 ≤ a.2

instance : DecidableRel keyLe := fun a b => inferInstanceAs (Decidable (a.1.data ≤ b.1.data))

instance : DecidableRel keyGe := fun a b => inferInstanceAs (Decidable (b.1.data ≤ a.1.data))

instance : DecidableRel durLe := fun a b => inferInstanceAs (Decidable (a.2 ≤ b.2))

instance : DecidableRel durGe := fun a b => inferInstanceAs (Decidable (b.2 ≤ a.2))

instance : IsTotal (String × Nat) keyLe := ⟨fun a b => le_total a.1.data b.1.data⟩

instance : IsTotal (String × Nat) keyGe := ⟨fun a b => le_total b.1.data a.1.data⟩

instance : IsTotal (String × Nat) durLe := ⟨fun a b => Nat.le_total a.2 b.2⟩

instance : IsTotal (String × Nat) durGe := ⟨fun a b => Nat.le_total b.2 a.2⟩

instance : IsTrans (String × Nat) keyLe := ⟨fun _ _ _ h h' => le_trans h h'⟩

instance : IsTrans (String × Nat) keyGe := ⟨fun _ _ _ h h' => le_trans h' h⟩

instance : IsTrans (String × Nat) durLe := ⟨fun _ _ _ h h' => Nat.le_trans h h'⟩

instance : IsTrans (String × Nat) durGe := ⟨fun _ _ _ h h' => Nat.le_trans h' h⟩

/-- The `match self.print_order` sort in `Display::fmt`: Rust's `sort_by` /
`sort_by_key` are stable, modelled by stable insertion sort. -/
def sortStats (print_order : PrintOrder) (stats : TimesMap) : TimesMap :=
  match print_order with
  | PrintOrder.Key => stats.insertionSort keyLe
  | PrintOrder.RevKey => stats.insertionSort keyGe
  | PrintOrder.IncDuration => stats.insertionSort durLe
  | PrintOrder.DecDuration => stats.insertionSort durGe

/-- Round `num / den` (with `den > 0`) to the nearest integer, ties to even. -/
def roundHalfEven (num den : Nat) : Nat :=
  let q := num / den
  let r := num % den
  if 2 * r < den then q
  else if den < 2 * r then q + 1
  else if q % 2 = 0 then q else q + 1

/-- The seconds value of `nanos` nanoseconds, scaled to `precision` decimal
digits and rounded: the integer nearest to `nanos * 10 ^ precision / 10 ^ 9`. -/
def scaledDecimal (nanos precision : Nat) : Nat :=
  if precision ≤ 9 then roundHalfEven nanos (10 ^ (9 - precision))
  else nanos * 10 ^ (precision - 9)

/-- Pad a digit string on the left with zeros up to `len` characters. -/
def padZerosLeft (s : String) (len : Nat) : String :=
  String.mk (List.replicate (len - s.length) '0') ++ s

/-- The duration of `nanos` nanoseconds rendered in seconds as a fixed-point
decimal with `precision` digits after the decimal point (the value part of the
`Display` format specifier, before width padding). -/
def formatFixed (nanos precision : Nat) : String :=
  let scaled := scaledDecimal nanos precision
  if precision = 0 then toString scaled
  else
    toString (scaled / 10 ^ precision) ++ "." ++
      padZerosLeft (toString (scaled % 10 ^ precision)) precision

/-- Left-align `s` in a field of minimum width `width`, filling with spaces;
a value longer than `width` is kept whole, never cut. -/
def leftAlign (s : String) (width : Nat) : String :=
  s ++ String.mk (List.replicate (width - s.length) ' ')

/-- One `", <key>: <value>"` segment written by the loop in `Display::fmt`. -/
def renderSeg (width precision : Nat) (p : String × Nat) : String :=
  ", " ++ p.1 ++ ": " ++ leftAlign (formatFixed p.2 precision) width

/-- `impl fmt::Display for TimeReporter`: the full report message. -/
def renderTR (r : TimeReporter) : String :=
  "name: " ++ r.name ++
    String.join ((sortStats r.print_order (get_times r.times r.print_order)).map
      (renderSeg r.width r.precision))

/-- One structured event handed to the `tracing` sink. -/
structure Report where
  span_label : String
  target : String
  level : Level
  message : String
deriving DecidableEq, Repr

/-- `impl Drop for TimeReporter`: enter a span labelled `"time-report"` and emit
one event with target `"tracing-perf"`, the configured level and the `Display`
rendering as message. -/
def dropEmit (r : TimeReporter) : Report :=
  { span_label := "time-report"
    target := "tracing-perf"
    level := r.level
    message := renderTR r }

/-- `TimeReporter::finish(self)`: the body is empty; the consumed value is
dropped at its end, which performs the one emission. -/
def TimeReporter.finish (r : TimeReporter) : Report := dropEmit r

/-- A mutation operation together with the instant at which it runs. -/
inductive Op where
  | startOp (key : String) (now : Nat)
  | stopOp (now : Nat)
deriving DecidableEq, Repr

/-- Apply one mutation operation. -/
def applyOp (r : TimeReporter) : Op → TimeReporter
  | Op.startOp k now => r.start k now
  | Op.stopOp now => r.stop now

/-- Apply a sequence of mutation operations. -/
def runOps (r : TimeReporter) (ops : List Op) : TimeReporter :=
  ops.foldl applyOp r

/-- How an instance's lifetime ends: `finish(self)` or implicit scope-exit. -/
inductive Finalizer where
  | explicitFinish
  | scopeDrop
deriving DecidableEq, Repr

/-- The reports emitted over the whole lifetime of one instance: the mutation
operations run, then the lifetime ends one way or the other. `finish` consumes
the value (no use can follow it), and `Drop::drop` runs exactly once per
instance, inside `finish` or at scope exit. -/
def lifecycleReports (name : String) (ops : List Op) (fz : Finalizer) : List Report :=
  let r := runOps (TimeReporter.new name) ops
  match fz with
  | Finalizer.explicitFinish => [r.finish]
  | Finalizer.scopeDrop => [dropEmit r]

/-- `derive Clone` on `TimeReporter`: a field-wise copy, yielding an independent
second instance with equal state. -/
def cloneTR (r : TimeReporter) : TimeReporter := r

/-- Scenario for the clone interaction: build, run `ops0`, clone, run `opsA` on
the original and `opsB` on the clone, then let both go out of scope; each of
the two instances is dropped once and emits its own report. -/
def cloneScenarioReports (name : String) (ops0 opsA opsB : List Op) : List Report :=
  let r := runOps (TimeReporter.new name) ops0
  let a := runOps r opsA
  let b := runOps (cloneTR r) opsB
  [dropEmit a, dropEmit b]

/-- The accumulated duration stored for `key`, zero when absent. -/
def getAcc (r : TimeReporter) (key : String) : Nat :=
  (r.times.lookup key).getD 0

/-- Whether `key` has an entry in the accumulated map. -/
def hasKey (r : TimeReporter) (key : String) : Bool :=
  (r.times.lookup key).isSome

/-- The accumulated map of the spec's P5 ordering example:
a ↦ 2.0 s, b ↦ 5.0 s, c ↦ 1.0 s. -/
def exMap : TimesMap := [("a", 2000000000), ("b", 5000000000), ("c", 1000000000)]

theorem lookup_entryAdd_self (ts : TimesMap) (k : String) (d : Nat) :
    (entryAdd ts k d).lookup k = some ((ts.lookup k).getD 0 + d) := by
  induction ts with
  | nil => simp [entryAdd, List.lookup]
  | cons p rest ih =>
      obtain ⟨ka, v⟩ := p
      by_cases h : ka = k
      · subst h
        simp [entryAdd, List.lookup]
      · have hb : (k == ka) = false := beq_eq_false_iff_ne.mpr (Ne.symm h)
        simp [entryAdd, h, List.lookup, hb, ih]

theorem lookup_entryAdd_ne (ts : TimesMap) (k k' : String) (d : Nat) (h : k' ≠ k) :
    (entryAdd ts k d).lookup k' = ts.lookup k' := by
  have hb0 : (k' == k) = false := beq_eq_false_iff_ne.mpr h
  induction ts with
  | nil => simp [entryAdd, List.lookup, hb0]
  | cons p rest ih =>
      obtain ⟨ka, v⟩ := p
      by_cases hk : ka = k
      · subst hk
        simp [entryAdd, List.lookup, hb0]
      · by_cases hk' : k' = ka
        · subst hk'
          simp [entryAdd, hk, List.lookup]
        · have hb : (k' == ka) = false := beq_eq_false_iff_ne.mpr hk'
          simp [entryAdd, hk, List.lookup, hb, ih]

theorem getD_lookup_entryAdd_le (ts : TimesMap) (k : String) (d : Nat) (k' : String) :
    (ts.lookup k').getD 0 ≤ ((entryAdd ts k d).lookup k').getD 0 := by
  by_cases h : k' = k
  · subst h
    rw [lookup_entryAdd_self]
    exact Nat.le_add_right _ _
  · rw [lookup_entryAdd_ne ts k k' d h]

theorem isSome_lookup_entryAdd (ts : TimesMap) (k : String) (d : Nat) (k' : String)
    (h : (ts.lookup k').isSome = true) :
    ((entryAdd ts k d).lookup k').isSome = true := by
  by_cases hk : k' = k
  · subst hk
    rw [lookup_entryAdd_self]
    rfl
  · rw [lookup_entryAdd_ne ts k k' d hk]
    exact h

theorem getAcc_save_current_le (r : TimeReporter) (now : Nat) (k : String) :
    getAcc r k ≤ getAcc (r.save_current now) k := by
  cases h : r.cur_state_time with
  | none => simp [getAcc, TimeReporter.save_current, h]
  | some p =>
      obtain ⟨key, prev⟩ := p
      simp only [getAcc, TimeReporter.save_current, h]
      exact getD_lookup_entryAdd_le r.times key (now - prev) k

theorem hasKey_save_current (r : TimeReporter) (now : Nat) (k : String)
    (h : hasKey r k = true) : hasKey (r.save_current now) k = true := by
  cases hc : r.cur_state_time with
  | none => simpa [hasKey, TimeReporter.save_current, hc] using h
  | some p =>
      obtain ⟨key, prev⟩ := p
      simp only [hasKey, TimeReporter.save_current, hc]
      exact isSome_lookup_entryAdd r.times key (now - prev) k h

theorem getAcc_applyOp_le (r : TimeReporter) (op : Op) (k : String) :
    getAcc r k ≤ getAcc (applyOp r op) k := by
  cases op with
  | startOp key now => exact getAcc_save_current_le r now k
  | stopOp now => exact getAcc_save_current_le r now k

theorem hasKey_applyOp (r : TimeReporter) (op : Op) (k : String)
    (h : hasKey r k = true) : hasKey (applyOp r op) k = true := by
  cases op with
  | startOp key now => exact hasKey_save_current r now k h
  | stopOp now => exact hasKey_save_current r now k h

theorem getAcc_runOps_le (r : TimeReporter) (ops : List Op) (k : String) :
    getAcc r k ≤ getAcc (runOps r ops) k := by
  induction ops generalizing r with
  | nil => exact Nat.le_refl _
  | cons op rest ih =>
      exact Nat.le_trans (getAcc_applyOp_le r op k) (ih (applyOp r op))

theorem hasKey_runOps (r : TimeReporter) (ops : List Op) (k : String)
    (h : hasKey r k = true) : hasKey (runOps r ops) k = true := by
  induction ops generalizing r with
  | nil => exact h
  | cons op rest ih => exact ih (applyOp r op) (hasKey_applyOp r op k h)

/-- Claim C1, counterexample: `start("k")` on a fresh reporter named `"t"` and
then `finish()` with no intervening `stop()`. The interval for `"k"` is still
open when finalization occurs, yet the emitted message is exactly `"name: t"`
(no entry for `"k"`) and the accumulated map never receives an entry for
`"k"` — the open interval's elapsed time is lost, contradicting the claim that
it is folded into `accumulated["k"]` before emission. -/
theorem C1_counterexample :
    (TimeReporter.start (TimeReporter.new "t") "k" 5).cur_state_time = some ("k", 5) ∧
    (TimeReporter.finish (TimeReporter.start (TimeReporter.new "t") "k" 5)).message
      = "name: t" ∧
    ((TimeReporter.start (TimeReporter.new "t") "k" 5).times.lookup "k") = none := by
  exact ⟨by decide, by decide, by decide⟩

/-- Claim C1, amended: finalization (explicit `finish`, which only drops its
consumed argument, or `Drop::drop`) emits exactly the rendering of the
accumulated map; an open interval is ignored — it is never folded into
`accumulated`, so its elapsed time is absent from the emitted report. -/
theorem C1_open_interval_not_folded (r : TimeReporter) (c : Option (String × Nat)) :
    r.finish = dropEmit r ∧
    dropEmit { r with cur_state_time := c } = dropEmit r ∧
    (dropEmit r).message = renderTR r :=
  ⟨rfl, rfl, rfl⟩

/-- Claim C2: over one instance's lifetime — any sequence of mutation
operations followed by finalization — exactly one report is emitted, and the
explicit-`finish` path and the scope-exit-drop path emit the same single
report. -/
theorem C2_exactly_once_emission (name : String) (ops : List Op) (fz : Finalizer) :
    (lifecycleReports name ops fz).length = 1 ∧
    lifecycleReports name ops Finalizer.explicitFinish
      = lifecycleReports name ops Finalizer.scopeDrop := by
  cases fz <;> exact ⟨rfl, rfl⟩

/-- Claim C3: `start(key)` installs `(key, now)` as the open interval; if an
interval `(kp, t0)` was open it is first closed, adding the elapsed `now - t0`
to the entry of `kp` (a zero entry being inserted when `kp` is absent, so the
new value is the old accumulated value-or-zero plus the elapsed time — the
stored total is never reset). -/
theorem C3_start_semantics (r : TimeReporter) (key : String) (now : Nat) :
    (r.start key now).cur_state_time = some (key, now) ∧
    (r.start key now).times =
      (match r.cur_state_time with
       | none => r.times
       | some (kp, t0) => entryAdd r.times kp (now - t0)) ∧
    (∀ (ts : TimesMap) (k : String) (d : Nat),
      (entryAdd ts k d).lookup k = some ((ts.lookup k).getD 0 + d)) := by
  refine ⟨rfl, ?_, lookup_entryAdd_self⟩
  cases h : r.cur_state_time with
  | none => simp [TimeReporter.start, TimeReporter.save_current, h]
  | some p =>
      obtain ⟨kp, t0⟩ := p
      simp [TimeReporter.start, TimeReporter.save_current, h]

/-- Claim C4: the rendering sort orders entries by the configured print order —
`Key` ascending lexicographic by key, `RevKey` descending by key,
`IncDuration` ascending by duration, `DecDuration` descending by duration —
each a permutation of the accumulated entries; on the map a ↦ 2 s, b ↦ 5 s,
c ↦ 1 s, `DecDuration` yields b, a, c; `Key` yields a, b, c; `RevKey` yields
c, b, a. -/
theorem C4_print_order_correct :
    (∀ ts : TimesMap, List.Sorted keyLe (sortStats PrintOrder.Key ts)
      ∧ List.Perm (sortStats PrintOrder.Key ts) ts) ∧
    (∀ ts : TimesMap, List.Sorted keyGe (sortStats PrintOrder.RevKey ts)
      ∧ List.Perm (sortStats PrintOrder.RevKey ts) ts) ∧
    (∀ ts : TimesMap, List.Sorted durLe (sortStats PrintOrder.IncDuration ts)
      ∧ List.Perm (sortStats PrintOrder.IncDuration ts) ts) ∧
    (∀ ts : TimesMap, List.Sorted durGe (sortStats PrintOrder.DecDuration ts)
      ∧ List.Perm (sortStats PrintOrder.DecDuration ts) ts) ∧
    (sortStats PrintOrder.DecDuration exMap).map Prod.fst = ["b", "a", "c"] ∧
    (sortStats PrintOrder.Key exMap).map Prod.fst = ["a", "b", "c"] ∧
    (sortStats PrintOrder.RevKey exMap).map Prod.fst = ["c", "b", "a"] ∧
    (sortStats PrintOrder.IncDuration exMap).map Prod.fst = ["c", "a", "b"] := by
  refine ⟨fun ts => ⟨List.sorted_insertionSort keyLe ts, List.perm_insertionSort keyLe ts⟩,
    fun ts => ⟨List.sorted_insertionSort keyGe ts, List.perm_insertionSort keyGe ts⟩,
    fun ts => ⟨List.sorted_insertionSort durLe ts, List.perm_insertionSort durLe ts⟩,
    fun ts => ⟨List.sorted_insertionSort durGe ts, List.perm_insertionSort durGe ts⟩,
    by decide, by decide, by decide, by decide⟩

/-- Claim C5: the rendered report begins with `"name: <name>"`, followed by one
`", <key>: <value>"` segment per entry, the value being the duration in
seconds as a fixed-point decimal with the configured precision digits after
the point, left-aligned and space-padded to the configured minimum width; a
duration of exactly 1.5 s at precision 3 renders as `"1.500"` (and padded to
the default width 11 as `"1.500      "`). -/
theorem C5_render_format (name key : String) (d w p : Nat) :
    renderTR
      { times := [(key, d)], cur_state_time := none, name := name,
        level := Level.INFO, print_order := PrintOrder.DecDuration,
        width := w, precision := p }
      = "name: " ++ name ++ ", " ++ key ++ ": " ++ leftAlign (formatFixed d p) w ∧
    formatFixed 1500000000 3 = "1.500" ∧
    leftAlign (formatFixed 1500000000 3) 11 = "1.500      " := by
  refine ⟨?_, by decide, by decide⟩
  apply String.ext
  simp [renderTR, sortStats, get_times, renderSeg, List.insertionSort,
    List.orderedInsert, String.data_append]

/-- Claim C6: `new(name)`, `new_with_level(name, level)` and a fresh
builder-constructed reporter start with an empty accumulated map, no open
interval, print order `DecDuration` (the default), width 11 and precision 9
(`new` uses level INFO, `new_with_level` the given level). -/
theorem C6_defaults (name : String) (level : Level) :
    TimeReporter.new name =
      { times := [], cur_state_time := none, name := name, level := Level.INFO,
        print_order := PrintOrder.DecDuration, width := 11, precision := 9 } ∧
    TimeReporter.new_with_level name level =
      { times := [], cur_state_time := none, name := name, level := level,
        print_order := PrintOrder.DecDuration, width := 11, precision := 9 } ∧
    (TimeReporterBuilder.new name).build = TimeReporter.new name ∧
    PrintOrder.default = PrintOrder.DecDuration :=
  ⟨rfl, rfl, rfl, rfl⟩

/-- Claim C7: the accumulated value of every key is monotonically
non-decreasing — each single operation (`start`, `stop`, `start_with`) and
every operation sequence can only leave it unchanged or add a (non-negative,
by the `Nat` nanosecond model) duration, and a present key is never removed. -/
theorem C7_accumulated_monotone (r : TimeReporter) (k : String) :
    (∀ (key : String) (now : Nat), getAcc r k ≤ getAcc (r.start key now) k) ∧
    (∀ now : Nat, getAcc r k ≤ getAcc (r.stop now) k) ∧
    (∀ (key : String) (now : Nat) (f : Unit → Unit),
      getAcc r k ≤ getAcc (r.start_with key now f).1 k) ∧
    (∀ ops : List Op, getAcc r k ≤ getAcc (runOps r ops) k) ∧
    (∀ ops : List Op, hasKey r k = true → hasKey (runOps r ops) k = true) :=
  ⟨fun _ now => getAcc_save_current_le r now k,
   fun now => getAcc_save_current_le r now k,
   fun _ now _ => getAcc_save_current_le r now k,
   fun ops => getAcc_runOps_le r ops k,
   fun ops => hasKey_runOps r ops k⟩

/-- Claim C7, witness: on a reporter that already holds an entry for `"a"`, a
further start/stop round leaves the accumulated value no smaller and the key
present. -/
theorem C7_accumulated_monotone_witness :
    getAcc (TimeReporter.stop (TimeReporter.start (TimeReporter.new "w") "a" 0) 3) "a"
      ≤ getAcc (runOps
          (TimeReporter.stop (TimeReporter.start (TimeReporter.new "w") "a" 0) 3)
          [Op.startOp "a" 4, Op.stopOp 9]) "a" ∧
    hasKey (runOps
        (TimeReporter.stop (TimeReporter.start (TimeReporter.new "w") "a" 0) 3)
        [Op.startOp "a" 4, Op.stopOp 9]) "a" = true := by
  have h := C7_accumulated_monotone
    (TimeReporter.stop (TimeReporter.start (TimeReporter.new "w") "a" 0) 3) "a"
  exact ⟨h.2.2.2.1 [Op.startOp "a" 4, Op.stopOp 9],
    h.2.2.2.2 [Op.startOp "a" 4, Op.stopOp 9] (by decide)⟩

/-- Claim C8: `stop()` on a reporter with no open interval is a no-op — the
whole state, the accumulated map included, is returned unchanged. -/
theorem C8_stop_noop (r : TimeReporter) (now : Nat) (h : r.cur_state_time = none) :
    r.stop now = r := by
  simp [TimeReporter.stop, TimeReporter.save_current, h]

/-- Claim C8, witness: `stop` at instant 7 on a freshly built reporter (which
has no open interval) returns it unchanged. -/
theorem C8_stop_noop_witness :
    TimeReporter.stop (TimeReporter.new "w2") 7 = TimeReporter.new "w2" :=
  C8_stop_noop (TimeReporter.new "w2") 7 rfl

/-- Claim C9: cloning is a field-wise copy producing an independent second
instance; in a scenario where a reporter is cloned and both instances are
later dropped, two reports are emitted for the one logical unit of work, each
the rendering of its own instance's state at its own drop. -/
theorem C9_clone_emits_twice (name : String) (ops0 opsA opsB : List Op) :
    (cloneScenarioReports name ops0 opsA opsB).length = 2 ∧
    cloneScenarioReports name ops0 opsA opsB =
      [dropEmit (runOps (runOps (TimeReporter.new name) ops0) opsA),
       dropEmit (runOps (runOps (TimeReporter.new name) ops0) opsB)] ∧
    (∀ r : TimeReporter, cloneTR r = r) :=
  ⟨rfl, rfl, fun _ => rfl⟩

/-- Claim C10: a reporter that is dropped (or finished) without any mutation
operation still emits exactly one report, whose message is exactly
`"name: <name>"` with no entry segments. -/
theorem C10_empty_report (name : String) :
    dropEmit (TimeReporter.new name) =
      { span_label := "time-report", target := "tracing-perf",
        level := Level.INFO, message := "name: " ++ name } ∧
    (lifecycleReports name [] Finalizer.scopeDrop).length = 1 ∧
    lifecycleReports name [] Finalizer.explicitFinish
      = [dropEmit (TimeReporter.new name)] := by
  refine ⟨?_, rfl, rfl⟩
  simp only [dropEmit, Report.mk.injEq, true_and]
  refine ⟨rfl, ?_⟩
  apply String.ext
  simp [renderTR, sortStats, get_times, List.insertionSort, String.data_append,
    TimeReporter.new, TimeReporterBuilder.new, TimeReporterBuilder.build,
    PrintOrder.default]

end TracingPerf
